import Mathlib

/-!
Verification of the replicated DuckDB store (`store/store.go`, `http/service.go`,
`main.go`, `db/db.go`) against its natural-language specification.

The Go code is shallowly embedded: each Go function that a claim is about is
translated into an executable Lean definition that follows the source's control
flow statement by statement.  External effects (consensus-module futures,
filesystem calls, the storage-engine driver) are made explicit: fallible calls
take their outcome as a parameter, and every externally visible call is recorded
in a trace of actions so that "never calls X" / "X happens before Y" properties
can be stated about the trace.
-/

namespace DuckdbService

/-! ## Storage engine adapter (`db/db.go`)

The engine is an opaque external collaborator (`execute(stmt) -> {rows_affected} | error`).
It is modelled as a set of statements the driver rejects (an execution error is a
property of the statement) plus the ordered list of successfully executed
statements; the numeric rows-affected outcome of a successful statement is
abstracted to a fixed value, which no claim depends on. -/

/-- Result of `DB.Execute` in `db/db.go`: the rows-affected count. -/
structure ExecuteResult where
  rowsAffected : Int
deriving Repr, DecidableEq

/-- Model of the opaque storage engine handle (`*sql.DB` in `db/db.go`). -/
structure DB where
  /-- Statements the engine fails on (e.g. malformed SQL); the error is a
  property of the statement, not of the engine state. -/
  rejects : List String
  /-- Statements successfully executed so far, in order: the storage-visible state. -/
  applied : List String
deriving Repr, DecidableEq

/-- Model of `DB.Execute` (`db/db.go` line 275): on a driver error returns
`(nil, err)` with the state unchanged, otherwise records the statement and
returns `(result, nil)`.  The Go pair `(*ExecuteResult, error)` is rendered as
`Option ExecuteResult × Option String`. -/
def dbExec (db : DB) (sql : String) : DB × Option ExecuteResult × Option String :=
  if sql ∈ db.rejects then
    (db, none, some ("execution error: " ++ sql))
  else
    ({ db with applied := db.applied ++ [sql] }, some ⟨1⟩, none)

/-! ## Command codec (`store/store.go` lines 170-172, 179-185, 243-246)

`Command` is a struct with a single string field, so `json.Marshal` on it is
total and injective, and `json.Unmarshal` on its output always succeeds and
round-trips.  A log payload is therefore either the marshalled form of some
`Command` (on which decoding succeeds) or bytes that `json.Unmarshal` rejects. -/

/-- The unit submitted to the log (`store/store.go` line 170). -/
structure Command where
  SQL : String
deriving Repr, DecidableEq

/-- Bytes carried by a raft log entry, as seen by the command codec. -/
inductive LogPayload where
  /-- Bytes produced by `json.Marshal` of a `Command` (decoding succeeds). -/
  | wellFormed (c : Command)
  /-- Bytes that `json.Unmarshal` rejects (a corrupted entry). -/
  | corrupt (bytes : String)
deriving Repr, DecidableEq

/-- Model of `json.Unmarshal(l.Data, &c)` (`store/store.go` line 244). -/
def unmarshalCommand : LogPayload → Option Command
  | .wellFormed c => some c
  | .corrupt _ => none

/-! ## The FSM `Apply` callback (`store/store.go` lines 242-250) -/

/-- The value handed back through `f.Response()` (`store/store.go` lines 236-239):
a nilable result paired with a nilable engine error. -/
structure fsmExecuteResponse where
  result : Option ExecuteResult
  error : Option String
deriving Repr, DecidableEq

/-- How a Go function call terminates: a normal return value, or a panic. -/
inductive GoResult (α : Type) where
  | ok (a : α)
  | panic (msg : String)
deriving Repr, DecidableEq

/-- Externally visible calls made on the write path. -/
inductive StoreAction where
  /-- `ds.raft.Apply(b, raftTimeout)`: the command bytes submitted to the log. -/
  | raftApply (payload : LogPayload)
  /-- `ds.db.Execute(c.SQL)`: a call into the storage engine. -/
  | engineExec (sql : String)
deriving Repr, DecidableEq

/-- Model of `DistributedStore.Apply` (`store/store.go` lines 242-250): decode
the command from the entry's payload; on decode failure panic; on success call
the engine and return the `(result, error)` pair as the apply outcome. -/
def applyGo (db : DB) (payload : LogPayload) :
    DB × List StoreAction × GoResult fsmExecuteResponse :=
  match unmarshalCommand payload with
  | none => (db, [], .panic "failed to unmarshal command")
  | some c =>
    let r := dbExec db c.SQL
    (r.1, [.engineExec c.SQL], .ok ⟨r.2.1, r.2.2⟩)

/-! ## `Execute` on the coordinator (`store/store.go` lines 174-194) -/

/-- The consensus role of the local node, as reported by `ds.raft.State()`
(hashicorp raft: Follower, Candidate, Leader, Shutdown). -/
inductive NodeState where
  | Follower
  | Candidate
  | Leader
  | Shutdown
deriving Repr, DecidableEq

/-- Errors `Execute` can return.  `errors.New` gives `ErrNotLeader` a distinct
identity that engine errors and raft future errors never compare equal to
(`err == store.ErrNotLeader` in `http/service.go` line 231 is an identity test),
so the three kinds are distinct constructors. -/
inductive StoreError where
  /-- `ErrNotLeader` (`store/store.go` line 27). -/
  | notLeader
  /-- A non-nil `f.Error()` from the raft apply future (e.g. timeout). -/
  | raftFailure (msg : String)
  /-- An engine error surfaced from the apply outcome (`r.error`). -/
  | engine (msg : String)
deriving Repr, DecidableEq

/-- Model of `DistributedStore.Execute` (`store/store.go` lines 174-194).
`raftErr` is the outcome of the raft apply future: `none` means the entry
committed and the local apply callback ran (in which case `applyGo` models it);
`some m` means `f.Error()` was non-nil.  `json.Marshal` of a `Command` cannot
fail, so the marshal-error branch of the source is dead and the payload is
always `wellFormed`. -/
def ExecuteGo (role : NodeState) (raftErr : Option String) (db : DB) (query : String) :
    DB × List StoreAction × GoResult (Option ExecuteResult × Option StoreError) :=
  if role = NodeState.Leader then
    let payload := LogPayload.wellFormed ⟨query⟩
    match raftErr with
    | some m => (db, [.raftApply payload], .ok (none, some (.raftFailure m)))
    | none =>
      let a := applyGo db payload
      match a.2.2 with
      | .panic m => (a.1, .raftApply payload :: a.2.1, .panic m)
      | .ok resp => (a.1, .raftApply payload :: a.2.1, .ok (resp.result, resp.error.map .engine))
  else
    (db, [], .ok (none, some .notLeader))

/-! ## `Leader` on the coordinator (`store/store.go` lines 146-149)

`strings.Split(s, sep)` with a non-empty separator splits `s` around each
instance of the separator; in particular `Split("", "|") = [""]` (one empty
segment).  Indexing the resulting slice at position 1 panics with an
index-out-of-range runtime error when the slice is shorter. -/

/-- Go's `strings.Split` specialized to the single-character separator `"|"`
used by `Leader`, over the string's character list. -/
def splitOnPipe : List Char → List (List Char)
  | [] => [[]]
  | c :: rest =>
    if c = '|' then
      [] :: splitOnPipe rest
    else
      match splitOnPipe rest with
      | [] => [[c]]
      | seg :: segs => (c :: seg) :: segs

/-- Model of `strings.Split(s, "|")` (`store/store.go` line 148). -/
def goSplitPipe (s : String) : List String :=
  (splitOnPipe s.toList).map (fun cs => String.mk cs)

/-- Model of `DistributedStore.Leader` (`store/store.go` lines 146-149):
split the leader's compound server identity on `|` and index the slice at
position 1.  `leaderServerID` is the `serverID` reported by
`ds.raft.LeaderWithID()`; the empty string means no leader is currently
known. -/
def LeaderGo (leaderServerID : String) : GoResult String :=
  match (goSplitPipe leaderServerID).get? 1 with
  | some part => .ok part
  | none => .panic "runtime error: index out of range [1] with length 1"

/-! ## `Join` on the coordinator (`store/store.go` lines 201-234) -/

/-- A member of the raft configuration (`raft.Server`): its server ID and its
consensus-transport address. -/
structure Server where
  id : String
  addr : String
deriving Repr, DecidableEq

/-- The raft membership configuration: the list of servers. -/
abbrev Configuration := List Server

/-- Consensus-module membership calls made by `Join`, in order. -/
inductive JoinAction where
  /-- `ds.raft.GetConfiguration()`. -/
  | getConfiguration
  /-- `ds.raft.RemoveServer(srv.ID, 0, 0)`. -/
  | removeServer (id : String)
  /-- `ds.raft.AddVoter(id, addr, prevIndex, timeout)`; the timeout is in
  nanoseconds, the unit of Go's `time.Duration`. -/
  | addVoter (id : String) (addr : String) (prevIndex : Int) (timeoutNs : Int)
deriving Repr, DecidableEq

/-- Effect of `raft.RemoveServer(id, 0, 0)` on the configuration: the server
with that ID is removed. -/
def removeServerCfg (cfg : Configuration) (id : String) : Configuration :=
  cfg.filter (fun s => s.id ≠ id)

/-- Effect of `raft.AddVoter(id, addr, 0, t)` on the configuration
(hashicorp raft `nextConfiguration`): if a server with that ID exists its
address is updated, otherwise a new voter is appended. -/
def addVoterCfg (cfg : Configuration) (id addr : String) : Configuration :=
  if cfg.any (fun s => s.id == id) then
    cfg.map (fun s => if s.id = id then { s with addr := addr } else s)
  else
    cfg ++ [⟨id, addr⟩]

/-- Outcomes of the consensus-module futures that `Join` waits on; `none`
means the corresponding future returned a nil error. -/
structure RaftOracle where
  getConfigErr : Option String
  removeErr : String → Option String
  addVoterErr : Option String

/-- Model of `time.Duration(x.Seconds())` for a nonnegative duration `d` in
nanoseconds: `Seconds()` divides by 1e9 (computed in `float64` in Go), and
converting the result back to the integer type `time.Duration` truncates
toward zero, so the composite is integer division truncated toward zero.
(The `float64` rounding of `d/1e9` never moves a nonzero fractional value
across an integer boundary for the magnitudes involved here.) -/
def durationOfOwnSeconds (d : Nat) : Int := (d / 1000000000 : Nat)

/-- The timeout `Join` passes to `AddVoter` (`store/store.go` line 228):
`time.Duration(time.Duration(30).Seconds())`.  `time.Duration(30)` is 30
nanoseconds (not 30 seconds); its `.Seconds()` is `3e-8`, and converting that
back to `time.Duration` truncates toward zero. -/
def addVoterTimeoutNs : Int := durationOfOwnSeconds 30

/-- The loop of `Join` over the fetched configuration (`store/store.go` lines
210-226).  It walks the snapshot of the server list while the membership
changes are applied to the accumulated configuration `cfg`.  The third
component of the result is `some r` when the loop body returned from `Join`
early with result `r` (`some none` for the idempotent no-op return, `some
(some e)` for a removal error), and `none` when the loop ran to completion. -/
def joinScan (o : RaftOracle) (nodeID addr : String) :
    List Server → Configuration → Configuration × List JoinAction × Option (Option String)
  | [], cfg => (cfg, [], none)
  | srv :: rest, cfg =>
    if srv.id = nodeID ∨ srv.addr = addr then
      if srv.addr = addr ∧ srv.id = nodeID then
        (cfg, [], some none)
      else
        match o.removeErr srv.id with
        | some m =>
          (cfg, [.removeServer srv.id],
            some (some ("error removing existing node: " ++ m)))
        | none =>
          let r := joinScan o nodeID addr rest (removeServerCfg cfg srv.id)
          (r.1, .removeServer srv.id :: r.2.1, r.2.2)
    else
      joinScan o nodeID addr rest cfg

/-- Model of `DistributedStore.Join` (`store/store.go` lines 201-234): fetch
the configuration, scan it for conflicting members, then add the joining node
as a voter.  Returns the resulting configuration, the trace of membership
calls, and the error returned to the caller (`none` = success). -/
def joinGo (o : RaftOracle) (cfg : Configuration) (nodeID addr : String) :
    Configuration × List JoinAction × Option String :=
  match o.getConfigErr with
  | some m => (cfg, [.getConfiguration], some m)
  | none =>
    let s := joinScan o nodeID addr cfg cfg
    match s.2.2 with
    | some r => (s.1, .getConfiguration :: s.2.1, r)
    | none =>
      match o.addVoterErr with
      | some m =>
        (s.1, .getConfiguration :: s.2.1 ++ [.addVoter nodeID addr 0 addVoterTimeoutNs],
          some m)
      | none =>
        (addVoterCfg s.1 nodeID addr,
          .getConfiguration :: s.2.1 ++ [.addVoter nodeID addr 0 addVoterTimeoutNs],
          none)

/-! ## `Restore` on the FSM (`store/store.go` lines 271-320) -/

/-- One `tarReader.Next()` step of the archive stream, with the outcome of the
filesystem call extracting it.  The stream ends with an implicit EOF after the
last step. -/
inductive TarStep where
  /-- `tarReader.Next()` itself fails. -/
  | readErr (msg : String)
  /-- A directory header; `mkErr` is the outcome of `os.MkdirAll`. -/
  | dir (name : String) (mkErr : Option String)
  /-- A regular-file header; `writeErr` is the outcome of `os.Create`/`io.Copy`. -/
  | file (name : String) (content : String) (writeErr : Option String)
  /-- A header with any other typeflag. -/
  | unknown (typeflag : Nat)
deriving Repr, DecidableEq

/-- Externally visible operations performed by `Restore`: the staging-directory
lifecycle, extraction into the staging directory, and the single operation that
touches the live database (`IMPORT DATABASE`). -/
inductive RestoreAction where
  /-- `os.MkdirTemp("", "duckdb_restore_*")`. -/
  | mkTempDir
  /-- `os.MkdirAll(filepath.Join(tmpDir, name), 0755)`. -/
  | extractDir (name : String)
  /-- `os.Create` + `io.Copy` of one file into the staging directory. -/
  | extractFile (name : String) (content : String)
  /-- `ds.db.Query("IMPORT DATABASE '<tmpDir>';")`: the only call against the
  live database. -/
  | importDb
  /-- The deferred `os.RemoveAll(tmpDir)`. -/
  | removeTempDir
deriving Repr, DecidableEq

/-- The extraction loop of `Restore` (`store/store.go` lines 281-311): walk the
archive, extracting each entry into the staging directory, stopping at the
first error.  Returns the completed extraction actions and the error that
stopped the loop, if any. -/
def extractLoop : List TarStep → List RestoreAction × Option String
  | [] => ([], none)
  | .readErr m :: _ => ([], some m)
  | .dir n none :: rest =>
    let r := extractLoop rest
    (.extractDir n :: r.1, r.2)
  | .dir _ (some m) :: _ => ([], some m)
  | .file n c none :: rest =>
    let r := extractLoop rest
    (.extractFile n c :: r.1, r.2)
  | .file _ _ (some m) :: _ => ([], some m)
  | .unknown f :: _ => ([], some ("unknown type: " ++ toString f ++ " in tar archive"))

/-- Model of `DistributedStore.Restore` (`store/store.go` lines 271-320):
create a staging directory (`mkTempErr` is the outcome of `os.MkdirTemp`),
extract the entire archive stream into it, then issue one `IMPORT DATABASE`
against it (`importErr` is the engine's outcome), with the deferred
`os.RemoveAll(tmpDir)` running on function exit.  Returns the trace of
operations and the error returned to the consensus module. -/
def restoreGo (mkTempErr : Option String) (stream : List TarStep)
    (importErr : Option String) : List RestoreAction × Option String :=
  match mkTempErr with
  | some m => ([], some ("failed to create temp directory: " ++ m))
  | none =>
    let e := extractLoop stream
    match e.2 with
    | some m => (RestoreAction.mkTempDir :: e.1 ++ [.removeTempDir], some m)
    | none =>
      match importErr with
      | some m =>
        (RestoreAction.mkTempDir :: e.1 ++ [.importDb, .removeTempDir],
          some ("failed to import database: " ++ m))
      | none =>
        (RestoreAction.mkTempDir :: e.1 ++ [.importDb, .removeTempDir], none)

/-! ## `Persist` on the snapshot handle (`store/store.go` lines 322-366) -/

/-- Calls made on the consensus module's snapshot sink. -/
inductive SinkAction where
  /-- A tar header (and, for a regular file, its bytes) written to the sink
  for one walked path. -/
  | writeEntry (relPath : String)
  /-- `sink.Cancel()`. -/
  | cancel
  /-- `sink.Close()`. -/
  | close
deriving Repr, DecidableEq

/-- One path visited by `filepath.Walk` over the export directory, with the
combined outcome of the per-entry work (the walk error argument,
`filepath.Rel`, `tar.FileInfoHeader`, `WriteHeader`, `os.Open`, `io.Copy`):
`err = some m` if any of those failed for this path. -/
structure WalkFile where
  relPath : String
  isDir : Bool
  err : Option String
deriving Repr, DecidableEq

/-- The walk of `Persist` (`store/store.go` lines 325-359): write an archive
entry to the sink for each visited path, stopping at the first error. -/
def persistLoop : List WalkFile → List SinkAction × Option String
  | [] => ([], none)
  | f :: rest =>
    match f.err with
    | some m => ([], some m)
    | none =>
      let r := persistLoop rest
      (.writeEntry f.relPath :: r.1, r.2)

/-- Model of `fsmSnapshot.Persist` (`store/store.go` lines 322-366): walk the
export directory writing entries into the sink; on any walk or write error
call `sink.Cancel()` and return a wrapped error; on success finalize with
`sink.Close()` (whose own outcome `closeErr` is returned as is). -/
def persistGo (files : List WalkFile) (closeErr : Option String) :
    List SinkAction × Option String :=
  let r := persistLoop files
  match r.2 with
  | some m =>
    (r.1 ++ [.cancel], some ("failed to archive snapshot directory: " ++ m))
  | none => (r.1 ++ [.close], closeErr)

/-! ## `Open` on the store (`store/store.go` lines 66-132) -/

/-- The externally visible steps of `DistributedStore.Open`, in source order. -/
inductive OpenAction where
  /-- `os.RemoveAll(ds.dbDir)`: delete the database directory. -/
  | removeDbDir
  /-- `os.MkdirAll(ds.raftDir, 0755)`. -/
  | mkRaftDir
  /-- `os.MkdirAll(ds.dbDir, 0755)`: recreate the database directory empty. -/
  | mkDbDir
  /-- `sql.Open(ds.dbDir)`: open the storage engine. -/
  | openEngine
  /-- The raft setup (transport, snapshot store, bolt store, `raft.NewRaft`,
  optional bootstrap). -/
  | setupRaft
deriving Repr, DecidableEq

/-- Model of `DistributedStore.Open` (`store/store.go` lines 66-132): delete
the database directory, recreate the raft and database directories, open the
engine, then set up raft.  Each parameter is the outcome of the corresponding
fallible call; `removeErr` is an `os.RemoveAll` error other than not-exists
(which the source tolerates).  The raft setup steps are folded into one
action whose several error cases are summarized by `raftSetupErr`. -/
def openGo (removeErr mkRaftErr mkDbErr openErr raftSetupErr : Option String) :
    List OpenAction × Option String :=
  match removeErr with
  | some m => ([.removeDbDir], some m)
  | none =>
    match mkRaftErr with
    | some m => ([.removeDbDir, .mkRaftDir], some m)
    | none =>
      match mkDbErr with
      | some m => ([.removeDbDir, .mkRaftDir, .mkDbDir], some m)
      | none =>
        match openErr with
        | some m => ([.removeDbDir, .mkRaftDir, .mkDbDir, .openEngine], some m)
        | none =>
          match raftSetupErr with
          | some m =>
            ([.removeDbDir, .mkRaftDir, .mkDbDir, .openEngine, .setupRaft], some m)
          | none =>
            ([.removeDbDir, .mkRaftDir, .mkDbDir, .openEngine, .setupRaft], none)

end DuckdbService

namespace DuckdbService

/-! ## Claims C1-C3 -/

/-- C1: for every statement, if the local node's consensus role is not Leader,
`Execute` returns the `NotLeader` error immediately: the returned state is the
unchanged storage state, the action trace is empty (no command was built or
submitted to the log, and the storage engine was never called), and the return
value is `(nil, ErrNotLeader)`. -/
theorem C1_execute_not_leader (role : NodeState) (raftErr : Option String) (db : DB)
    (query : String) (h : role ≠ NodeState.Leader) :
    ExecuteGo role raftErr db query = (db, [], .ok (none, some .notLeader)) := by
  simp [ExecuteGo, h]

theorem C1_execute_not_leader_witness :
    ExecuteGo NodeState.Follower none ⟨[], []⟩ "CREATE TABLE t(id INT)" =
      (⟨[], []⟩, [], .ok (none, some .notLeader)) :=
  C1_execute_not_leader NodeState.Follower none ⟨[], []⟩ "CREATE TABLE t(id INT)" (by decide)

/-- C2: `Apply` panics exactly on the log entries whose payload does not
deserialize into a `Command`; it returns normally (with some response) if and
only if decoding succeeds, never skipping a corrupt entry. -/
theorem C2_apply_panics_iff_corrupt (db : DB) (payload : LogPayload) :
    (∃ m, (applyGo db payload).2.2 = .panic m) ↔ unmarshalCommand payload = none := by
  cases payload <;> simp [applyGo, unmarshalCommand, dbExec]

/-- C3: for a log entry that decodes into a command the engine rejects, `Apply`
does not abort: the state is unchanged and it returns normally with the
`(nil result, engine error)` pair; `Execute` on the leader hands that engine
error back as an ordinary error that is not `NotLeader`; and a subsequent
`Apply` of a valid command on the same node still succeeds. -/
theorem C3_engine_error_not_fatal (db : DB) (bad good : String)
    (hbad : bad ∈ db.rejects) (hgood : good ∉ db.rejects) :
    applyGo db (.wellFormed ⟨bad⟩) =
      (db, [.engineExec bad], .ok ⟨none, some ("execution error: " ++ bad)⟩) ∧
    ExecuteGo NodeState.Leader none db bad =
      (db, [.raftApply (.wellFormed ⟨bad⟩), .engineExec bad],
        .ok (none, some (.engine ("execution error: " ++ bad)))) ∧
    StoreError.engine ("execution error: " ++ bad) ≠ StoreError.notLeader ∧
    applyGo db (.wellFormed ⟨good⟩) =
      ({ db with applied := db.applied ++ [good] }, [.engineExec good], .ok ⟨some ⟨1⟩, none⟩) := by
  refine ⟨?_, ?_, by simp, ?_⟩
  · simp [applyGo, unmarshalCommand, dbExec, hbad]
  · simp [ExecuteGo, applyGo, unmarshalCommand, dbExec, hbad]
  · simp [applyGo, unmarshalCommand, dbExec, hgood]

theorem C3_engine_error_not_fatal_witness :
    applyGo ⟨["BAD SQL"], []⟩ (.wellFormed ⟨"BAD SQL"⟩) =
      (⟨["BAD SQL"], []⟩, [.engineExec "BAD SQL"],
        .ok ⟨none, some ("execution error: " ++ "BAD SQL")⟩) ∧
    ExecuteGo NodeState.Leader none ⟨["BAD SQL"], []⟩ "BAD SQL" =
      (⟨["BAD SQL"], []⟩, [.raftApply (.wellFormed ⟨"BAD SQL"⟩), .engineExec "BAD SQL"],
        .ok (none, some (.engine ("execution error: " ++ "BAD SQL")))) ∧
    StoreError.engine ("execution error: " ++ "BAD SQL") ≠ StoreError.notLeader ∧
    applyGo ⟨["BAD SQL"], []⟩ (.wellFormed ⟨"GOOD SQL"⟩) =
      (⟨["BAD SQL"], ["GOOD SQL"]⟩, [.engineExec "GOOD SQL"], .ok ⟨some ⟨1⟩, none⟩) :=
  C3_engine_error_not_fatal ⟨["BAD SQL"], []⟩ "BAD SQL" "GOOD SQL" (by decide) (by decide)

/-! ## Claim C4 -/

/-- C4, counterexample: when no leader is known, `ds.raft.LeaderWithID()`
reports an empty server identity, and `Leader()` panics on the out-of-range
slice index instead of returning an empty/unknown result. -/
theorem C4_leader_empty_counterexample :
    LeaderGo "" = .panic "runtime error: index out of range [1] with length 1" := rfl

/-- C4, amended: when the leader's compound identity splits on `|` into the
two segments `nodeID|clientAddr`, `Leader()` returns the client-facing
segment; but when the identity does not contain the separator — in particular
when no leader is known and the identity is empty — `Leader()` panics on the
slice index instead of returning an empty result. -/
theorem C4_leader_client_segment (s id addr : String) (h : goSplitPipe s = [id, addr]) :
    LeaderGo s = .ok addr := by
  simp [LeaderGo, h]

theorem C4_leader_client_segment_witness :
    LeaderGo "node1|localhost:9301" = .ok "localhost:9301" :=
  C4_leader_client_segment "node1|localhost:9301" "node1" "localhost:9301" (by decide)

/-! ## Claims C5-C7: helper lemmas about the `Join` scan -/

/-- When the scanned list contains the exact `(nodeID, addr)` pair and every
member matching the id or the address is that exact pair, the scan performs no
membership call and returns early with a nil error. -/
theorem joinScan_exact (o : RaftOracle) (nodeID addr : String) (l : List Server) :
    ∀ cfg : Configuration, (⟨nodeID, addr⟩ : Server) ∈ l →
      (∀ s ∈ l, s.id = nodeID ∨ s.addr = addr → s = ⟨nodeID, addr⟩) →
      joinScan o nodeID addr l cfg = (cfg, [], some none) := by
  induction l with
  | nil => intro cfg hmem _; simp at hmem
  | cons srv rest ih =>
    intro cfg hmem huniq
    by_cases hm : srv.id = nodeID ∨ srv.addr = addr
    · have heq : srv = ⟨nodeID, addr⟩ := huniq srv (by simp) hm
      subst heq
      simp [joinScan]
    · have hmem' : (⟨nodeID, addr⟩ : Server) ∈ rest := by
        rcases List.mem_cons.mp hmem with h | h
        · exfalso; apply hm; rw [← h]; exact Or.inl rfl
        · exact h
      simp only [joinScan, if_neg hm]
      exact ih cfg hmem' (fun s hs => huniq s (List.mem_cons_of_mem _ hs))

/-- The scan never adds a server: its resulting configuration is contained in
the starting one. -/
theorem joinScan_subset (o : RaftOracle) (nodeID addr : String) (l : List Server) :
    ∀ cfg : Configuration, ∀ t ∈ (joinScan o nodeID addr l cfg).1, t ∈ cfg := by
  induction l with
  | nil => intro cfg t ht; simpa [joinScan] using ht
  | cons srv rest ih =>
    intro cfg t ht
    by_cases hm : srv.id = nodeID ∨ srv.addr = addr
    · by_cases hex : srv.addr = addr ∧ srv.id = nodeID
      · simpa [joinScan, hm, hex] using ht
      · cases hrem : o.removeErr srv.id with
        | some m => simpa [joinScan, hm, hex, hrem] using ht
        | none =>
          simp only [joinScan, if_pos hm, if_neg hex, hrem] at ht
          have := ih (removeServerCfg cfg srv.id) t ht
          simp only [removeServerCfg, List.mem_filter] at this
          exact this.1
    · simp only [joinScan, if_neg hm] at ht
      exact ih cfg t ht

/-- When no scanned member matches both the id and the address, the scan never
returns early. -/
theorem joinScan_completes (o : RaftOracle) (nodeID addr : String) (l : List Server)
    (hremok : ∀ i, o.removeErr i = none) :
    ∀ cfg : Configuration, (∀ s ∈ l, ¬(s.addr = addr ∧ s.id = nodeID)) →
      (joinScan o nodeID addr l cfg).2.2 = none := by
  induction l with
  | nil => intro cfg _; simp [joinScan]
  | cons srv rest ih =>
    intro cfg hnex
    by_cases hm : srv.id = nodeID ∨ srv.addr = addr
    · have hex : ¬(srv.addr = addr ∧ srv.id = nodeID) := hnex srv (by simp)
      simp only [joinScan, if_pos hm, if_neg hex, hremok srv.id]
      exact ih (removeServerCfg cfg srv.id) (fun s hs => hnex s (by simp [hs]))
    · simp only [joinScan, if_neg hm]
      exact ih cfg (fun s hs => hnex s (by simp [hs]))

/-- Every scanned member matching the id or the address (but not both) has a
`RemoveServer` call for its ID recorded in the scan's trace. -/
theorem joinScan_removes_stale (o : RaftOracle) (nodeID addr : String) (l : List Server)
    (hremok : ∀ i, o.removeErr i = none) :
    ∀ cfg : Configuration, (∀ s ∈ l, ¬(s.addr = addr ∧ s.id = nodeID)) →
      ∀ stale ∈ l, stale.id = nodeID ∨ stale.addr = addr →
        JoinAction.removeServer stale.id ∈ (joinScan o nodeID addr l cfg).2.1 := by
  induction l with
  | nil => intro cfg _ stale hstale; simp at hstale
  | cons srv rest ih =>
    intro cfg hnex stale hstale hsm
    by_cases hm : srv.id = nodeID ∨ srv.addr = addr
    · have hex : ¬(srv.addr = addr ∧ srv.id = nodeID) := hnex srv (by simp)
      simp only [joinScan, if_pos hm, if_neg hex, hremok srv.id, List.mem_cons]
      rcases List.mem_cons.mp hstale with h | h
      · left; rw [h]
      · right
        exact ih (removeServerCfg cfg srv.id) (fun s hs => hnex s (by simp [hs])) stale h hsm
    · rcases List.mem_cons.mp hstale with h | h
      · exact absurd (h ▸ hsm) hm
      · simp only [joinScan, if_neg hm]
        exact ih cfg (fun s hs => hnex s (by simp [hs])) stale h hsm

/-- After a completed scan in which every member still to be visited covers
every matching member of the accumulated configuration, no member matching the
id or the address remains. -/
theorem joinScan_clears (o : RaftOracle) (nodeID addr : String) (l : List Server)
    (hremok : ∀ i, o.removeErr i = none) :
    ∀ cfg : Configuration, (∀ s ∈ l, ¬(s.addr = addr ∧ s.id = nodeID)) →
      (∀ s ∈ cfg, s.id = nodeID ∨ s.addr = addr → s ∈ l) →
      ∀ t ∈ (joinScan o nodeID addr l cfg).1, ¬(t.id = nodeID ∨ t.addr = addr) := by
  induction l with
  | nil =>
    intro cfg _ hinv t ht hmatch
    simp only [joinScan] at ht
    exact absurd (hinv t ht hmatch) (List.not_mem_nil _)
  | cons srv rest ih =>
    intro cfg hnex hinv t ht hmatch
    by_cases hm : srv.id = nodeID ∨ srv.addr = addr
    · have hex : ¬(srv.addr = addr ∧ srv.id = nodeID) := hnex srv (by simp)
      simp only [joinScan, if_pos hm, if_neg hex, hremok srv.id] at ht
      refine ih (removeServerCfg cfg srv.id) (fun s hs => hnex s (by simp [hs])) ?_ t ht hmatch
      intro s hs hsm
      have hs' : s ∈ cfg ∧ s.id ≠ srv.id := by
        simpa [removeServerCfg, List.mem_filter] using hs
      rcases List.mem_cons.mp (hinv s hs'.1 hsm) with h | h
      · exact absurd (congrArg Server.id h) hs'.2
      · exact h
    · simp only [joinScan, if_neg hm] at ht
      refine ih cfg (fun s hs => hnex s (by simp [hs])) ?_ t ht hmatch
      intro s hs hsm
      rcases List.mem_cons.mp (hinv s hs hsm) with h | h
      · exact absurd (h ▸ hsm) hm
      · exact h

/-- C5: `Join` is idempotent.  When the `(nodeID, addr)` pair is already a
member of the configuration and is the only member matching its id or its
address, `Join` returns success having performed only the configuration fetch
— no `RemoveServer` and no `AddVoter` — and leaves the membership unchanged;
calling it again on the result succeeds identically with no membership
change. -/
theorem C5_join_idempotent (o : RaftOracle) (cfg : Configuration) (nodeID addr : String)
    (hconf : o.getConfigErr = none)
    (hmem : (⟨nodeID, addr⟩ : Server) ∈ cfg)
    (huniq : ∀ s ∈ cfg, s.id = nodeID ∨ s.addr = addr → s = ⟨nodeID, addr⟩) :
    joinGo o cfg nodeID addr = (cfg, [JoinAction.getConfiguration], none) ∧
    joinGo o (joinGo o cfg nodeID addr).1 nodeID addr =
      (cfg, [JoinAction.getConfiguration], none) := by
  have h1 : joinGo o cfg nodeID addr = (cfg, [JoinAction.getConfiguration], none) := by
    simp [joinGo, hconf, joinScan_exact o nodeID addr cfg cfg hmem huniq]
  refine ⟨h1, ?_⟩
  rw [h1]
  exact h1

theorem C5_join_idempotent_witness :
    joinGo ⟨none, fun _ => none, none⟩ [⟨"n1", "a1"⟩] "n1" "a1" =
      ([⟨"n1", "a1"⟩], [JoinAction.getConfiguration], none) ∧
    joinGo ⟨none, fun _ => none, none⟩
        (joinGo ⟨none, fun _ => none, none⟩ [⟨"n1", "a1"⟩] "n1" "a1").1 "n1" "a1" =
      ([⟨"n1", "a1"⟩], [JoinAction.getConfiguration], none) :=
  C5_join_idempotent ⟨none, fun _ => none, none⟩ [⟨"n1", "a1"⟩] "n1" "a1" rfl (by decide)
    (by decide)

/-- C6: when the configuration contains a member matching the joining node's
id or address but no member matching both, `Join` records a `RemoveServer`
call for the stale member, performs the `AddVoter` call last, returns success,
and the resulting membership contains exactly one entry with that id and
exactly one with that address. -/
theorem C6_join_replaces_stale (o : RaftOracle) (cfg : Configuration)
    (nodeID addr : String) (stale : Server)
    (hconf : o.getConfigErr = none) (hremok : ∀ i, o.removeErr i = none)
    (haddok : o.addVoterErr = none)
    (hstale : stale ∈ cfg) (hmatch : stale.id = nodeID ∨ stale.addr = addr)
    (hnex : ∀ s ∈ cfg, ¬(s.addr = addr ∧ s.id = nodeID)) :
    JoinAction.removeServer stale.id ∈ (joinGo o cfg nodeID addr).2.1 ∧
    (joinGo o cfg nodeID addr).2.1.getLast? =
      some (JoinAction.addVoter nodeID addr 0 addVoterTimeoutNs) ∧
    (joinGo o cfg nodeID addr).1.countP (fun s => s.id == nodeID) = 1 ∧
    (joinGo o cfg nodeID addr).1.countP (fun s => s.addr == addr) = 1 ∧
    (joinGo o cfg nodeID addr).2.2 = none := by
  have hclear : ∀ t ∈ (joinScan o nodeID addr cfg cfg).1, ¬(t.id = nodeID ∨ t.addr = addr) :=
    joinScan_clears o nodeID addr cfg hremok cfg hnex (fun s hs _ => hs)
  have hdone : (joinScan o nodeID addr cfg cfg).2.2 = none :=
    joinScan_completes o nodeID addr cfg hremok cfg hnex
  have hnoid : (joinScan o nodeID addr cfg cfg).1.any (fun s => s.id == nodeID) = false := by
    simp only [List.any_eq_false, beq_iff_eq]
    intro t ht
    exact fun h => hclear t ht (Or.inl h)
  have hjoin : joinGo o cfg nodeID addr =
      ((joinScan o nodeID addr cfg cfg).1 ++ [⟨nodeID, addr⟩],
        (JoinAction.getConfiguration :: (joinScan o nodeID addr cfg cfg).2.1) ++
          [JoinAction.addVoter nodeID addr 0 addVoterTimeoutNs],
        none) := by
    simp [joinGo, hconf, hdone, haddok, addVoterCfg, hnoid]
  rw [hjoin]
  refine ⟨?_, ?_, ?_, ?_, rfl⟩
  · simp only [List.mem_append, List.mem_cons]
    exact Or.inl (Or.inr (joinScan_removes_stale o nodeID addr cfg hremok cfg hnex
      stale hstale hmatch))
  · rw [← List.concat_eq_append, List.getLast?_concat]
  · rw [List.countP_append]
    have h0 : (joinScan o nodeID addr cfg cfg).1.countP (fun s => s.id == nodeID) = 0 := by
      simp only [List.countP_eq_zero, beq_iff_eq]
      intro t ht
      exact fun h => hclear t ht (Or.inl h)
    simp [h0]
  · rw [List.countP_append]
    have h0 : (joinScan o nodeID addr cfg cfg).1.countP (fun s => s.addr == addr) = 0 := by
      simp only [List.countP_eq_zero, beq_iff_eq]
      intro t ht
      exact fun h => hclear t ht (Or.inr h)
    simp [h0]

theorem C6_join_replaces_stale_witness :
    JoinAction.removeServer "n1" ∈
      (joinGo ⟨none, fun _ => none, none⟩ [⟨"n1", "a1"⟩] "n1" "a2").2.1 ∧
    (joinGo ⟨none, fun _ => none, none⟩ [⟨"n1", "a1"⟩] "n1" "a2").2.1.getLast? =
      some (JoinAction.addVoter "n1" "a2" 0 addVoterTimeoutNs) ∧
    (joinGo ⟨none, fun _ => none, none⟩ [⟨"n1", "a1"⟩] "n1" "a2").1.countP
      (fun s => s.id == "n1") = 1 ∧
    (joinGo ⟨none, fun _ => none, none⟩ [⟨"n1", "a1"⟩] "n1" "a2").1.countP
      (fun s => s.addr == "a2") = 1 ∧
    (joinGo ⟨none, fun _ => none, none⟩ [⟨"n1", "a1"⟩] "n1" "a2").2.2 = none :=
  C6_join_replaces_stale ⟨none, fun _ => none, none⟩ [⟨"n1", "a1"⟩] "n1" "a2" ⟨"n1", "a1"⟩
    rfl (fun _ => rfl) rfl (by decide) (by decide) (by decide)

/-- C7: the timeout `Join` passes to the consensus module's `AddVoter` call is
zero nanoseconds, not a positive bounded duration: the source expression
`time.Duration(time.Duration(30).Seconds())` truncates to 0 (so the add-voter
operation is not time-limited).  The trace of a `Join` that reaches the
add-voter step records the zero timeout. -/
theorem C7_addvoter_timeout_is_zero :
    addVoterTimeoutNs = 0 ∧
    (joinGo ⟨none, fun _ => none, none⟩ [⟨"n1", "a1"⟩] "n2" "a2").2.1 =
      [JoinAction.getConfiguration, JoinAction.addVoter "n2" "a2" 0 0] :=
  ⟨rfl, by decide⟩

/-! ## Claim C8 -/

/-- Every action recorded by the extraction loop is an extraction into the
staging directory. -/
theorem extractLoop_only_extracts (stream : List TarStep) :
    ∀ a ∈ (extractLoop stream).1,
      (∃ n, a = RestoreAction.extractDir n) ∨
        (∃ n c, a = RestoreAction.extractFile n c) := by
  induction stream with
  | nil => simp [extractLoop]
  | cons step rest ih =>
    intro a ha
    match step with
    | .readErr m => simp [extractLoop] at ha
    | .dir n none =>
      simp only [extractLoop, List.mem_cons] at ha
      rcases ha with rfl | ha
      · exact Or.inl ⟨n, rfl⟩
      · exact ih a ha
    | .dir n (some m) => simp [extractLoop] at ha
    | .file n c none =>
      simp only [extractLoop, List.mem_cons] at ha
      rcases ha with rfl | ha
      · exact Or.inr ⟨n, c, rfl⟩
      · exact ih a ha
    | .file n c (some m) => simp [extractLoop] at ha
    | .unknown f => simp [extractLoop] at ha

/-- C8: for every archive stream (given that the staging directory was
created), `Restore`'s operation trace starts by creating the staging
directory, then consists only of extractions into it, issues at most one
`IMPORT DATABASE` against the live database — exactly one, placed after all
extraction, when extraction succeeded, and none when it failed — and deletes
the staging directory as the last operation on every exit path. -/
theorem C8_restore_stages_then_imports (stream : List TarStep) (importErr : Option String) :
    ∃ ex : List RestoreAction,
      (∀ a ∈ ex, (∃ n, a = RestoreAction.extractDir n) ∨
        (∃ n c, a = RestoreAction.extractFile n c)) ∧
      ((restoreGo none stream importErr).1 =
          RestoreAction.mkTempDir :: ex ++ [RestoreAction.removeTempDir] ∧
        (restoreGo none stream importErr).2.isSome ∨
       (restoreGo none stream importErr).1 =
          RestoreAction.mkTempDir :: ex ++
            [RestoreAction.importDb, RestoreAction.removeTempDir]) := by
  refine ⟨(extractLoop stream).1, extractLoop_only_extracts stream, ?_⟩
  cases he : (extractLoop stream).2 with
  | some m => exact Or.inl (by constructor <;> simp [restoreGo, he])
  | none => exact Or.inr (by cases importErr <;> simp [restoreGo, he])

theorem C8_restore_stages_then_imports_witness :
    ∃ ex : List RestoreAction,
      (∀ a ∈ ex, (∃ n, a = RestoreAction.extractDir n) ∨
        (∃ n c, a = RestoreAction.extractFile n c)) ∧
      ((restoreGo none [TarStep.dir "d" none, TarStep.file "d/t.parquet" "rows" none] none).1 =
          RestoreAction.mkTempDir :: ex ++ [RestoreAction.removeTempDir] ∧
        (restoreGo none [TarStep.dir "d" none, TarStep.file "d/t.parquet" "rows" none] none).2.isSome ∨
       (restoreGo none [TarStep.dir "d" none, TarStep.file "d/t.parquet" "rows" none] none).1 =
          RestoreAction.mkTempDir :: ex ++
            [RestoreAction.importDb, RestoreAction.removeTempDir]) :=
  C8_restore_stages_then_imports [TarStep.dir "d" none, TarStep.file "d/t.parquet" "rows" none]
    none

/-! ## Claim C9 -/

/-- The walk of `Persist` completes without error exactly when no visited path
produced an error. -/
theorem persistLoop_err_none (files : List WalkFile) :
    (persistLoop files).2 = none ↔ ∀ f ∈ files, f.err = none := by
  induction files with
  | nil => simp [persistLoop]
  | cons f rest ih =>
    cases hf : f.err with
    | some m => simp [persistLoop, hf]
    | none => simp [persistLoop, hf, ih]

/-- The walk of `Persist` only writes entries to the sink. -/
theorem persistLoop_only_writes (files : List WalkFile) :
    ∀ a ∈ (persistLoop files).1, ∃ p, a = SinkAction.writeEntry p := by
  induction files with
  | nil => simp [persistLoop]
  | cons f rest ih =>
    intro a ha
    cases hf : f.err with
    | some m => simp [persistLoop, hf] at ha
    | none =>
      simp only [persistLoop, hf, List.mem_cons] at ha
      rcases ha with rfl | ha
      · exact ⟨f.relPath, rfl⟩
      · exact ih a ha

/-- C9: if any error occurs while walking the export directory or writing an
entry to the sink, `Persist` calls the sink's `Cancel`, never calls its
`Close`, and returns an error; if the walk completes without error, `Persist`
finalizes by closing the sink and never calls `Cancel`. -/
theorem C9_persist_cancel_xor_close (files : List WalkFile) (closeErr : Option String) :
    ((∃ f ∈ files, f.err.isSome) →
      SinkAction.cancel ∈ (persistGo files closeErr).1 ∧
      SinkAction.close ∉ (persistGo files closeErr).1 ∧
      (persistGo files closeErr).2.isSome) ∧
    ((∀ f ∈ files, f.err = none) →
      SinkAction.close ∈ (persistGo files closeErr).1 ∧
      SinkAction.cancel ∉ (persistGo files closeErr).1 ∧
      (persistGo files closeErr).2 = closeErr) := by
  constructor
  · rintro ⟨f, hf, hferr⟩
    have herr : (persistLoop files).2 ≠ none := by
      rw [Ne, persistLoop_err_none]
      intro hall
      rw [hall f hf] at hferr
      simp at hferr
    obtain ⟨m, hm⟩ := Option.ne_none_iff_exists'.mp herr
    refine ⟨by simp [persistGo, hm], ?_, by simp [persistGo, hm]⟩
    intro hcl
    simp only [persistGo, hm, List.mem_append, List.mem_cons] at hcl
    rcases hcl with hcl | hcl
    · obtain ⟨p, hp⟩ := persistLoop_only_writes files _ hcl
      exact SinkAction.noConfusion hp
    · simp at hcl
  · intro hall
    have hok : (persistLoop files).2 = none := (persistLoop_err_none files).mpr hall
    refine ⟨by simp [persistGo, hok], ?_, by simp [persistGo, hok]⟩
    intro hca
    simp only [persistGo, hok, List.mem_append, List.mem_cons] at hca
    rcases hca with hca | hca
    · obtain ⟨p, hp⟩ := persistLoop_only_writes files _ hca
      exact SinkAction.noConfusion hp
    · simp at hca

theorem C9_persist_cancel_xor_close_witness :
    (SinkAction.cancel ∈ (persistGo [⟨"t.parquet", false, some "io error"⟩] none).1 ∧
      SinkAction.close ∉ (persistGo [⟨"t.parquet", false, some "io error"⟩] none).1 ∧
      (persistGo [⟨"t.parquet", false, some "io error"⟩] none).2.isSome) ∧
    (SinkAction.close ∈ (persistGo [⟨".", true, none⟩] none).1 ∧
      SinkAction.cancel ∉ (persistGo [⟨".", true, none⟩] none).1 ∧
      (persistGo [⟨".", true, none⟩] none).2 = none) :=
  ⟨(C9_persist_cancel_xor_close [⟨"t.parquet", false, some "io error"⟩] none).1 (by decide),
    (C9_persist_cancel_xor_close [⟨".", true, none⟩] none).2 (by decide)⟩

/-! ## Claim C10 -/

/-- C10: every run of `Open` deletes the database directory as its very first
step, unconditionally; and whenever the storage engine is opened, the deletion
and the empty recreation of the directory have already happened, so no local
database state survives a restart — the node's storage always starts empty. -/
theorem C10_open_wipes_db_dir (removeErr mkRaftErr mkDbErr openErr raftSetupErr : Option String) :
    (openGo removeErr mkRaftErr mkDbErr openErr raftSetupErr).1.take 1 =
      [OpenAction.removeDbDir] ∧
    (OpenAction.openEngine ∈ (openGo removeErr mkRaftErr mkDbErr openErr raftSetupErr).1 →
      (openGo removeErr mkRaftErr mkDbErr openErr raftSetupErr).1.take 4 =
        [OpenAction.removeDbDir, OpenAction.mkRaftDir, OpenAction.mkDbDir,
          OpenAction.openEngine]) := by
  cases removeErr <;> cases mkRaftErr <;> cases mkDbErr <;> cases openErr <;>
    cases raftSetupErr <;> constructor <;> simp [openGo]

theorem C10_open_wipes_db_dir_witness :
    (openGo none none none none none).1.take 4 =
      [OpenAction.removeDbDir, OpenAction.mkRaftDir, OpenAction.mkDbDir,
        OpenAction.openEngine] :=
  (C10_open_wipes_db_dir none none none none none).2 (by decide)

end DuckdbService
